import Mathlib

/-!
Verification of the data transformation and storage stage of the churn
prediction pipeline (`src/data_transformation_storage.py`) against its
natural-language specification.

The pandas DataFrame is shallowly embedded as an association list of named
columns.  Numeric cells are modelled as exact rationals (`ℚ`); the upstream
validation stage guarantees the absence of missing values in the data fed to
the transformation functions, so missingness is modelled only where the code
inspects it (the data-quality score and the relational store, whose cells are
`Option`-valued).  Fallible operations (a pandas `KeyError`, a sqlite
constraint violation) are embedded as `Except String`.
-/

set_option maxHeartbeats 1000000

namespace ChurnPipeline

/-! ### Python string primitives

`startsWithList`/`containsList`/`endsWithList` model Python's
`str.startswith`, the `in` substring operator, and `str.endswith`
on explicit character lists. -/

def startsWithList (needle hay : List Char) : Bool :=
  match needle, hay with
  | [], _ => true
  | _ :: _, [] => false
  | a :: ns, b :: hs => a == b && startsWithList ns hs

def containsList (needle hay : List Char) : Bool :=
  match hay with
  | [] => needle.isEmpty
  | _ :: t => startsWithList needle hay || containsList needle t

/-- Python `needle in hay` (substring containment). -/
def strContains (hay needle : String) : Bool :=
  containsList needle.toList hay.toList

/-- Python `hay.endswith(needle)`. -/
def strEndsWith (hay needle : String) : Bool :=
  startsWithList needle.toList.reverse hay.toList.reverse

/-- Python `s.lower()` (ASCII lowering suffices for the column names used). -/
def strLower (s : String) : String :=
  ⟨s.toList.map Char.toLower⟩

/-! ### Python `round(x, 2)`

CPython rounds half to even.  The embedding works over exact rationals; every
concrete value appearing in the claims is far enough from a tie that the exact
model and the IEEE-754 execution agree. -/

/-- Round a rational to the nearest integer, ties to even. -/
def roundHalfEvenInt (q : ℚ) : ℤ :=
  if q - ⌊q⌋ < 1/2 then ⌊q⌋
  else if 1/2 < q - ⌊q⌋ then ⌊q⌋ + 1
  else if ⌊q⌋ % 2 = 0 then ⌊q⌋ else ⌊q⌋ + 1

/-- Python `round(x, 2)`. -/
def pyRound2 (x : ℚ) : ℚ :=
  (roundHalfEvenInt (x * 100) : ℚ) / 100

theorem roundHalfEvenInt_intCast (n : ℤ) : roundHalfEvenInt (n : ℚ) = n := by
  norm_num [roundHalfEvenInt]

/-- If `q < k + 1/2` then the half-even rounding of `q` is at most `k`. -/
theorem roundHalfEvenInt_le (q : ℚ) (k : ℤ) (h : q < (k : ℚ) + 1/2) :
    roundHalfEvenInt q ≤ k := by
  have hf : (⌊q⌋ : ℚ) ≤ q := Int.floor_le q
  have hfk : ⌊q⌋ ≤ k := by
    have h1 : (⌊q⌋ : ℚ) < (k : ℚ) + 1 := lt_of_le_of_lt hf (by linarith)
    have h2 : (⌊q⌋ : ℚ) < ((k + 1 : ℤ) : ℚ) := by push_cast; linarith
    exact Int.lt_add_one_iff.mp (by exact_mod_cast h2)
  unfold roundHalfEvenInt
  by_cases h1 : q - ⌊q⌋ < 1/2
  · simp only [h1, if_true]; exact hfk
  · have hge : (1 : ℚ)/2 ≤ q - ⌊q⌋ := le_of_not_lt h1
    have hlt : ⌊q⌋ < k := by
      have : (⌊q⌋ : ℚ) + 1/2 ≤ q := by linarith
      have h2 : (⌊q⌋ : ℚ) < k := by linarith
      exact_mod_cast h2
    simp only [h1, if_false]
    by_cases h2 : 1/2 < q - ⌊q⌋ <;> by_cases h3 : ⌊q⌋ % 2 = 0 <;>
      simp only [h2, h3, if_true, if_false] <;> omega

/-! ### The DataFrame embedding

A pandas DataFrame is an ordered association list of named columns.  Column
assignment (`df['x'] = v`) overwrites an existing column in place or appends a
new one; column lookup (`df['x']`) raises `KeyError` when absent, embedded via
`Option`/`Except`. -/

structure Table (α : Type) where
  cols : List (String × List α)
deriving DecidableEq

/-- First column with the given name (Python `df[name]`, minus the raise). -/
def lookupCol {α : Type} (name : String) : List (String × List α) → Option (List α)
  | [] => none
  | c :: cs => if c.1 == name then some c.2 else lookupCol name cs

/-- Python `name in df.columns`. -/
def hasColList {α : Type} (name : String) : List (String × List α) → Bool
  | [] => false
  | c :: cs => c.1 == name || hasColList name cs

/-- Overwrite every column of the given name with the new values. -/
def updateCol {α : Type} (name : String) (v : List α) :
    List (String × List α) → List (String × List α)
  | [] => []
  | c :: cs =>
    if c.1 == name then (name, v) :: updateCol name v cs
    else c :: updateCol name v cs

namespace Table

variable {α : Type}

def colNames (t : Table α) : List String := t.cols.map Prod.fst

def getCol? (t : Table α) (name : String) : Option (List α) :=
  lookupCol name t.cols

def hasCol (t : Table α) (name : String) : Bool :=
  hasColList name t.cols

/-- Python `df[name] = vals`: overwrite in place, else append on the right. -/
def setCol (t : Table α) (name : String) (vals : List α) : Table α :=
  if t.hasCol name then ⟨updateCol name vals t.cols⟩
  else ⟨t.cols ++ [(name, vals)]⟩

/-- Pandas `df.rename(columns={old: nw})`: renames every matching column. -/
def renameCol (t : Table α) (old nw : String) : Table α :=
  ⟨t.cols.map (fun c => if c.1 == old then (nw, c.2) else c)⟩

/-- Number of rows (length of the first column; pandas columns share length). -/
def nrows (t : Table α) : Nat :=
  (t.cols.head?.map (fun c => c.2.length)).getD 0

/-- Every column holds exactly `n` values (a rectangular DataFrame). -/
def wf (t : Table α) (n : Nat) : Prop := ∀ c ∈ t.cols, c.2.length = n

/-- Pandas `df.size`: the total cell count. -/
def size (t : Table (Option α)) : Nat :=
  (t.cols.map (fun c => c.2.length)).sum

/-- Pandas `df.isnull().sum().sum()`: the missing cell count. -/
def missingCount (t : Table (Option α)) : Nat :=
  (t.cols.map (fun c => c.2.countP (fun v => v.isNone))).sum

end Table

/-! Association-list lemmas for column update and lookup. -/

theorem lookupCol_updateCol_self {α : Type} (l : List (String × List α))
    (n : String) (v : List α) (h : hasColList n l = true) :
    lookupCol n (updateCol n v l) = some v := by
  induction l with
  | nil => simp [hasColList] at h
  | cons c cs ih =>
    by_cases hc : c.1 = n
    · simp [updateCol, lookupCol, hc]
    · simp only [hasColList, Bool.or_eq_true, beq_iff_eq] at h
      rcases h with h | h

      · exact absurd h hc
      · simp only [updateCol, lookupCol, beq_iff_eq, hc, if_false]
        exact ih h

theorem lookupCol_updateCol_ne {α : Type} (l : List (String × List α))
    (n m : String) (v : List α) (h : m ≠ n) :
    lookupCol m (updateCol n v l) = lookupCol m l := by
  induction l with
  | nil => simp [updateCol]
  | cons c cs ih =>
    have hnm : ¬ n = m := fun hh => h hh.symm
    by_cases hc : c.1 = n
    · simp [updateCol, lookupCol, hc, hnm, ih]
    · by_cases hm : c.1 = m <;> simp [updateCol, lookupCol, hc, hm, hnm, h, ih]

theorem lookupCol_append_self {α : Type} (l : List (String × List α))
    (n : String) (v : List α) (h : hasColList n l = false) :
    lookupCol n (l ++ [(n, v)]) = some v := by
  induction l with
  | nil => simp [lookupCol]
  | cons c cs ih =>
    simp only [hasColList, Bool.or_eq_false_iff, beq_eq_false_iff_ne] at h
    simp only [List.cons_append, lookupCol, beq_iff_eq, h.1, if_false]
    exact ih h.2

theorem lookupCol_append_ne {α : Type} (l : List (String × List α))
    (n m : String) (v : List α) (h : m ≠ n) :
    lookupCol m (l ++ [(n, v)]) = lookupCol m l := by
  have hnm : ¬ n = m := fun hh => h hh.symm
  induction l with
  | nil => simp [lookupCol, hnm]
  | cons c cs ih =>
    by_cases hm : c.1 = m <;> simp [lookupCol, hm, ih]

theorem hasColList_eq_isSome {α : Type} (l : List (String × List α)) (n : String) :
    hasColList n l = (lookupCol n l).isSome := by
  induction l with
  | nil => simp [hasColList, lookupCol]
  | cons c cs ih =>
    by_cases hc : c.1 = n <;> simp [hasColList, lookupCol, hc, ih]

theorem Table.getCol?_setCol_self {α : Type} (t : Table α) (n : String) (v : List α) :
    (t.setCol n v).getCol? n = some v := by
  unfold Table.setCol
  by_cases h : t.hasCol n
  · simp only [h, if_true]
    exact lookupCol_updateCol_self t.cols n v h
  · simp only [h, if_false]
    exact lookupCol_append_self t.cols n v (by simpa [Table.hasCol] using h)

theorem Table.getCol?_setCol_ne {α : Type} (t : Table α) (n m : String) (v : List α)
    (h : m ≠ n) : (t.setCol n v).getCol? m = t.getCol? m := by
  unfold Table.setCol
  by_cases hh : t.hasCol n <;> simp only [hh, if_true, if_false]
  · exact lookupCol_updateCol_ne t.cols n m v h
  · exact lookupCol_append_ne t.cols n m v h

theorem Table.hasCol_eq_isSome {α : Type} (t : Table α) (n : String) :
    t.hasCol n = (t.getCol? n).isSome :=
  hasColList_eq_isSome t.cols n

theorem Table.hasCol_setCol {α : Type} (t : Table α) (n m : String) (v : List α) :
    (t.setCol n v).hasCol m = if m = n then true else t.hasCol m := by
  by_cases h : m = n
  · subst h
    simp [Table.hasCol_eq_isSome, Table.getCol?_setCol_self]
  · simp [h, Table.hasCol_eq_isSome, Table.getCol?_setCol_ne t n m v h]

/-! ### The data-quality score (`calculate_data_quality_score`)

`completeness_score = (total_cells - missing_cells) / total_cells` is an
unguarded numpy division: on a table with zero cells it is `0 / 0`, which
numpy evaluates to NaN (a warning, not an exception).  The NaN outcome is
embedded as `none`; a well-defined score is `some q`. -/

def calculate_data_quality_score {α : Type} (df : Table (Option α)) : Option ℚ :=
  let total_cells := df.size
  let missing_cells := df.missingCount
  if total_cells = 0 then none
  else some (pyRound2 (((total_cells : ℚ) - missing_cells) / total_cells * 100))

theorem roundHalfEvenInt_eq_of_gt_half (q : ℚ) (k : ℤ)
    (hlo : (k : ℚ) + 1/2 < q) (hhi : q < (k : ℚ) + 1) :
    roundHalfEvenInt q = k + 1 := by
  have hk : ⌊q⌋ = k := by
    rw [Int.floor_eq_iff]
    constructor
    · linarith
    · exact_mod_cast hhi
  unfold roundHalfEvenInt
  rw [hk]
  rw [if_neg (by linarith), if_pos (by linarith)]

theorem countP_replicate_list {α : Type} (p : α → Bool) (a : α) (n : Nat) :
    List.countP p (List.replicate n a) = if p a then n else 0 := by
  induction n with
  | zero => simp
  | succ k ih =>
    rw [List.replicate_succ, List.countP_cons, ih]
    by_cases h : p a <;> simp [h]

/-- A one-column table with 20001 cells, exactly one of them missing. -/
def c3BigDf : Table (Option ℚ) :=
  ⟨[("TotalCharges", List.replicate 20000 (some 0) ++ [none])]⟩

theorem c3BigDf_size : c3BigDf.size = 20001 := by
  simp only [c3BigDf, Table.size, List.map_cons, List.map_nil, List.sum_cons,
    List.sum_nil, List.length_append, List.length_replicate, List.length_cons,
    List.length_nil]
  norm_num

theorem c3BigDf_missing : c3BigDf.missingCount = 1 := by
  simp only [c3BigDf, Table.missingCount, List.map_cons, List.map_nil,
    List.sum_cons, List.sum_nil, List.countP_append, countP_replicate_list,
    List.countP_cons, List.countP_nil, Option.isNone_some, Option.isNone_none,
    if_false, Bool.false_eq_true]
  norm_num

/-- C3 (counterexample): the claim that the score is strictly below 100.0
whenever at least one cell is missing is false: a 20001-cell table with
exactly one missing cell rounds back up to a score of 100.0. -/
theorem c3_claim_counterexample :
    c3BigDf.missingCount = 1 ∧ calculate_data_quality_score c3BigDf = some 100 := by
  refine ⟨c3BigDf_missing, ?_⟩
  simp only [calculate_data_quality_score, c3BigDf_size, c3BigDf_missing]
  rw [if_neg (by norm_num)]
  congr 1
  unfold pyRound2
  rw [show (((20001:ℕ):ℚ) - ((1:ℕ):ℚ)) / ((20001:ℕ):ℚ) * 100 * 100
        = 200000000/20001 by push_cast; norm_num]
  rw [roundHalfEvenInt_eq_of_gt_half _ 9999 (by norm_num) (by norm_num)]
  norm_num

/-- C3 (amended): for every table with at least one cell the score equals
`round(100*(r*c-m)/(r*c), 2)` (half-even rounding over exact arithmetic);
it is 100.0 whenever `m = 0`, and strictly below 100.0 whenever
`r*c < 20000*m` — but a single missing cell in a table of 20000 or more
cells rounds back up to 100.0, so `m ≥ 1` alone does not force a score
below 100.0. -/
theorem c3_score_characterization {α : Type} (t : Table (Option α))
    (h : 0 < t.size) :
    ∃ q, calculate_data_quality_score t = some q ∧
      q = pyRound2 (100 * ((t.size : ℚ) - (t.missingCount : ℚ)) / (t.size : ℚ)) ∧
      (t.missingCount = 0 → q = 100) ∧
      (t.size < 20000 * t.missingCount → q < 100) := by
  have hne : t.size ≠ 0 := h.ne'
  have hsQ : ((t.size : ℚ)) ≠ 0 := Nat.cast_ne_zero.mpr hne
  have hsQpos : (0:ℚ) < (t.size : ℚ) := by exact_mod_cast h
  refine ⟨pyRound2 (((t.size:ℚ) - (t.missingCount:ℚ))/(t.size:ℚ) * 100),
    ?_, ?_, ?_, ?_⟩
  · simp only [calculate_data_quality_score]
    rw [if_neg hne]
  · rw [show ((t.size:ℚ) - (t.missingCount:ℚ))/(t.size:ℚ) * 100
        = 100 * ((t.size : ℚ) - (t.missingCount : ℚ)) / (t.size : ℚ) by ring]
  · intro hm
    rw [hm]
    push_cast
    rw [sub_zero, div_self hsQ, one_mul]
    unfold pyRound2
    rw [show ((100:ℚ) * 100) = ((10000:ℤ):ℚ) by norm_num, roundHalfEvenInt_intCast]
    norm_num
  · intro hlt
    have hmono : ((t.size : ℚ)) < 20000 * (t.missingCount : ℚ) := by exact_mod_cast hlt
    have harg : ((t.size:ℚ) - (t.missingCount:ℚ))/(t.size:ℚ) * 100 * 100
        = 10000 - 10000 * ((t.missingCount : ℚ) / (t.size : ℚ)) := by
      field_simp
      ring
    have hhalf : (1:ℚ)/2 < 10000 * ((t.missingCount : ℚ) / (t.size : ℚ)) := by
      rw [← mul_div_assoc, lt_div_iff₀ hsQpos]
      linarith
    have hlt2 : ((t.size:ℚ) - (t.missingCount:ℚ))/(t.size:ℚ) * 100 * 100
        < ((9999:ℤ):ℚ) + 1/2 := by
      rw [harg]
      push_cast
      linarith
    have hr := roundHalfEvenInt_le _ 9999 hlt2
    have hrQ : ((roundHalfEvenInt
        (((t.size:ℚ) - (t.missingCount:ℚ))/(t.size:ℚ) * 100 * 100)) : ℚ) ≤ 9999 := by
      exact_mod_cast hr
    unfold pyRound2
    linarith

/-- A concrete complete two-cell table used to instantiate C3's theorem. -/
def c3SmallDf : Table (Option ℚ) := ⟨[("tenure", [some 1, some 2])]⟩

/-- Witness for C3's amended theorem at a concrete input. -/
theorem c3_score_characterization_witness :
    0 < c3SmallDf.size ∧
    ∃ q, calculate_data_quality_score c3SmallDf = some q ∧
      q = pyRound2 (100 * ((c3SmallDf.size : ℚ) - (c3SmallDf.missingCount : ℚ))
            / (c3SmallDf.size : ℚ)) ∧
      (c3SmallDf.missingCount = 0 → q = 100) ∧
      (c3SmallDf.size < 20000 * c3SmallDf.missingCount → q < 100) :=
  ⟨by decide, c3_score_characterization c3SmallDf (by decide)⟩

/-- A one-column zero-row table: zero cells in total. -/
def c10EmptyDf : Table (Option ℚ) := ⟨[("tenure", [])]⟩

/-- C10: `calculate_data_quality_score` is well-defined only on tables with at
least one cell: with zero cells the completeness ratio is the unguarded
division `0 / 0`, which numpy evaluates to NaN (modelled as `none`), so no
valid 0-100 score is returned; with at least one cell a score is returned. -/
theorem c10_quality_score_partiality {α : Type} (t : Table (Option α)) :
    (t.size = 0 → calculate_data_quality_score t = none) ∧
    (t.size ≠ 0 → ∃ q, calculate_data_quality_score t = some q) := by
  constructor
  · intro h
    simp [calculate_data_quality_score, h]
  · intro h
    refine ⟨pyRound2 (((t.size:ℚ) - (t.missingCount:ℚ))/(t.size:ℚ) * 100), ?_⟩
    simp [calculate_data_quality_score, h]

/-- Witness for C10 at a concrete zero-cell input. -/
theorem c10_quality_score_partiality_witness :
    calculate_data_quality_score c10EmptyDf = none :=
  (c10_quality_score_partiality c10EmptyDf).1 (by decide)

/-! ### Feature engineering (`create_aggregated_features`,
`create_feature_interactions`)

Numeric DataFrames are `Table ℚ`.  A missing source column accessed without a
presence guard raises `KeyError`, embedded as `Except.error`. -/

abbrev Df := Table ℚ

/-- The fixed nine-element service-column list of `create_aggregated_features`. -/
def fixedServiceNames : List String :=
  ["PhoneService", "MultipleLines", "InternetService", "OnlineSecurity",
   "OnlineBackup", "DeviceProtection", "TechSupport", "StreamingTV",
   "StreamingMovies"]

/-- Python `'service' in col.lower() or col in [...]`. -/
def isServiceCol (col : String) : Bool :=
  strContains (strLower col) "service" || fixedServiceNames.contains col

/-- The detected service columns, in DataFrame column order. -/
def serviceColNames (df : Df) : List String :=
  df.colNames.filter isServiceCol

/-- Value of column `c` in row `i` (0 when out of range; rectangular tables
never go out of range). -/
def cellAt (df : Df) (c : String) (i : Nat) : ℚ :=
  ((df.getCol? c).getD []).getD i 0

/-- Pandas `df[names].sum(axis=1)`: row-wise sums across the named columns. -/
def sumAcross (df : Df) (names : List String) (n : Nat) : List ℚ :=
  (List.range n).map (fun i => (names.map (fun c => cellAt df c i)).sum)

/-- The ordinal tenure-stability code of `create_aggregated_features`. -/
def tenureStabilityVal (t : ℚ) : ℚ :=
  if t ≤ 12 then 0 else if t ≤ 36 then 1 else if t ≤ 60 then 2 else 3

/-- Pandas `pd.cut(vals, bins=4, labels=[0,1,2,3]).astype(int)`: four
equal-width bins over the data range, with pandas' edge adjustment for a
zero-width range; bin intervals are right-closed. -/
def cut4 (vals : List ℚ) : List ℚ :=
  match vals with
  | [] => []
  | v0 :: vs =>
    let mn := vs.foldl min v0
    let mx := vs.foldl max v0
    let lo := if mn = mx then (if mn = 0 then mn - 1/1000 else mn - |mn| / 1000)
              else mn
    let hi := if mn = mx then (if mx = 0 then mx + 1/1000 else mx + |mx| / 1000)
              else mx
    let w := (hi - lo) / 4
    (v0 :: vs).map (fun v =>
      if v ≤ lo + w then 0
      else if v ≤ lo + 2 * w then 1
      else if v ≤ lo + 3 * w then 2
      else 3)

/-- The aggregated-feature stage.  The service block is guarded on the
presence of service columns, and `high_risk_payment` on `PaymentMethod`, but
`customer_value_segment` and `tenure_stability` access `TotalCharges` and
`tenure` unconditionally. -/
def create_aggregated_features (df : Df) : Except String Df :=
  let svc := serviceColNames df
  let firstStage : Except String Df :=
    if svc.isEmpty then Except.ok df
    else
      let totals := sumAcross df svc df.nrows
      let d1 := df.setCol "total_services" totals
      match d1.getCol? "tenure" with
      | none => Except.error "KeyError: tenure"
      | some tvals =>
        Except.ok (d1.setCol "service_density"
          (List.zipWith (fun s t => s / (t + 1)) totals tvals))
  match firstStage with
  | Except.error e => Except.error e
  | Except.ok d2 =>
    match d2.getCol? "TotalCharges" with
    | none => Except.error "KeyError: TotalCharges"
    | some tc =>
      let d3 := d2.setCol "customer_value_segment" (cut4 tc)
      match d3.getCol? "tenure" with
      | none => Except.error "KeyError: tenure"
      | some tvals =>
        let d4 := d3.setCol "tenure_stability" (tvals.map tenureStabilityVal)
        match d4.getCol? "PaymentMethod" with
        | none => Except.ok d4
        | some pm =>
          Except.ok (d4.setCol "high_risk_payment"
            (pm.map (fun p => if p = 2 then 1 else 0)))

/-- The interaction-feature stage.  The first two interaction terms access
`tenure`, `MonthlyCharges` and `TotalCharges` unconditionally; the last two
are guarded on their source columns being present in the input. -/
def create_feature_interactions (df : Df) : Except String Df :=
  match df.getCol? "tenure" with
  | none => Except.error "KeyError: tenure"
  | some t =>
    match df.getCol? "MonthlyCharges" with
    | none => Except.error "KeyError: MonthlyCharges"
    | some mc =>
      let d1 := df.setCol "tenure_monthly_interaction" (List.zipWith (· * ·) t mc)
      match d1.getCol? "TotalCharges" with
      | none => Except.error "KeyError: TotalCharges"
      | some tc =>
        let d2 := d1.setCol "tenure_total_interaction" (List.zipWith (· * ·) t tc)
        let d3 :=
          if df.hasCol "total_services" then
            match d2.getCol? "total_services" with
            | none => d2
            | some ts =>
              d2.setCol "services_charges_interaction" (List.zipWith (· * ·) ts mc)
          else d2
        if df.hasCol "Contract" && df.hasCol "PaymentMethod" then
          match d3.getCol? "Contract", d3.getCol? "PaymentMethod" with
          | some ct, some pm =>
            Except.ok (d3.setCol "contract_payment_interaction"
              (List.zipWith (· * ·) ct pm))
          | _, _ => Except.ok d3
        else Except.ok d3

theorem Table.getCol?_eq_none_of_hasCol_false {α : Type} (t : Table α)
    (n : String) (h : t.hasCol n = false) : t.getCol? n = none := by
  rw [Table.hasCol_eq_isSome] at h
  exact Option.not_isSome_iff_eq_none.mp (by simp [h])

/-- The feature names written by `create_aggregated_features`. -/
def aggFeatureNames : List String :=
  ["total_services", "service_density", "customer_value_segment",
   "tenure_stability", "high_risk_payment"]

/-- Execution of `create_aggregated_features` on an input holding `tenure` and
`TotalCharges` (and none of the names this stage writes): it succeeds, keeps
every original column unchanged, always adds `customer_value_segment` and
`tenure_stability`, adds the service aggregates exactly when a service column
was detected, and adds `high_risk_payment` exactly when `PaymentMethod` is
present. -/
theorem create_aggregated_features_spec (df : Df)
    (tv : List ℚ) (ht : df.getCol? "tenure" = some tv)
    (tcv : List ℚ) (htc : df.getCol? "TotalCharges" = some tcv)
    (hfresh : ∀ c ∈ aggFeatureNames, df.hasCol c = false) :
    ∃ out, create_aggregated_features df = Except.ok out ∧
      (∀ c, c ∉ aggFeatureNames → out.getCol? c = df.getCol? c) ∧
      out.hasCol "total_services" = !(serviceColNames df).isEmpty ∧
      out.hasCol "service_density" = !(serviceColNames df).isEmpty ∧
      out.hasCol "customer_value_segment" = true ∧
      out.hasCol "tenure_stability" = true ∧
      out.hasCol "high_risk_payment" = df.hasCol "PaymentMethod" ∧
      ((serviceColNames df).isEmpty = false →
        out.getCol? "total_services"
          = some (sumAcross df (serviceColNames df) df.nrows) ∧
        out.getCol? "service_density"
          = some (List.zipWith (fun s t => s / (t + 1))
              (sumAcross df (serviceColNames df) df.nrows) tv)) := by
  have hf1 : df.hasCol "total_services" = false := hfresh _ (by decide)
  have hf2 : df.hasCol "service_density" = false := hfresh _ (by decide)
  have hf5 : df.hasCol "high_risk_payment" = false := hfresh _ (by decide)
  cases hs : (serviceColNames df).isEmpty with
  | true =>
    cases hpm : df.getCol? "PaymentMethod" with
    | none =>
      refine ⟨(df.setCol "customer_value_segment" (cut4 tcv)).setCol
          "tenure_stability" (List.map tenureStabilityVal tv),
        ?_, ?_, ?_, ?_, ?_, ?_, ?_, ?_⟩
      · simp [create_aggregated_features, hs, htc, ht, hpm,
          Table.getCol?_setCol_ne]
      · intro c hc
        simp only [aggFeatureNames, List.mem_cons, List.not_mem_nil, or_false,
          not_or] at hc
        obtain ⟨h1, h2, h3, h4, h5⟩ := hc
        rw [Table.getCol?_setCol_ne _ _ _ _ h4, Table.getCol?_setCol_ne _ _ _ _ h3]
      · simp [Table.hasCol_setCol, hf1, hs]
      · simp [Table.hasCol_setCol, hf2, hs]
      · simp [Table.hasCol_setCol]
      · simp [Table.hasCol_setCol]
      · simp [Table.hasCol_setCol, Table.hasCol_eq_isSome, hpm,
          Table.getCol?_setCol_ne, Table.getCol?_setCol_self]
        exact Table.getCol?_eq_none_of_hasCol_false df _ hf5
      · intro habs
        simp [hs] at habs
    | some pm =>
      refine ⟨((df.setCol "customer_value_segment" (cut4 tcv)).setCol
          "tenure_stability" (List.map tenureStabilityVal tv)).setCol
          "high_risk_payment" (List.map (fun p => if p = 2 then 1 else 0) pm),
        ?_, ?_, ?_, ?_, ?_, ?_, ?_, ?_⟩
      · simp [create_aggregated_features, hs, htc, ht, hpm,
          Table.getCol?_setCol_ne]
      · intro c hc
        simp only [aggFeatureNames, List.mem_cons, List.not_mem_nil, or_false,
          not_or] at hc
        obtain ⟨h1, h2, h3, h4, h5⟩ := hc
        rw [Table.getCol?_setCol_ne _ _ _ _ h5, Table.getCol?_setCol_ne _ _ _ _ h4,
          Table.getCol?_setCol_ne _ _ _ _ h3]
      · simp [Table.hasCol_setCol, hf1, hs]
      · simp [Table.hasCol_setCol, hf2, hs]
      · simp [Table.hasCol_setCol]
      · simp [Table.hasCol_setCol]
      · simp [Table.hasCol_setCol, Table.hasCol_eq_isSome, hpm,
          Table.getCol?_setCol_ne, Table.getCol?_setCol_self]
      · intro habs
        simp [hs] at habs
  | false =>
    cases hpm : df.getCol? "PaymentMethod" with
    | none =>
      refine ⟨(((df.setCol "total_services"
            (sumAcross df (serviceColNames df) df.nrows)).setCol
          "service_density" (List.zipWith (fun s t => s / (t + 1))
            (sumAcross df (serviceColNames df) df.nrows) tv)).setCol
          "customer_value_segment" (cut4 tcv)).setCol
          "tenure_stability" (List.map tenureStabilityVal tv),
        ?_, ?_, ?_, ?_, ?_, ?_, ?_, ?_⟩
      · simp [create_aggregated_features, hs, htc, ht, hpm,
          Table.getCol?_setCol_ne]
      · intro c hc
        simp only [aggFeatureNames, List.mem_cons, List.not_mem_nil, or_false,
          not_or] at hc
        obtain ⟨h1, h2, h3, h4, h5⟩ := hc
        rw [Table.getCol?_setCol_ne _ _ _ _ h4, Table.getCol?_setCol_ne _ _ _ _ h3,
          Table.getCol?_setCol_ne _ _ _ _ h2, Table.getCol?_setCol_ne _ _ _ _ h1]
      · simp [Table.hasCol_setCol, hs]
      · simp [Table.hasCol_setCol, hs]
      · simp [Table.hasCol_setCol]
      · simp [Table.hasCol_setCol]
      · simp [Table.hasCol_setCol, Table.hasCol_eq_isSome, hpm,
          Table.getCol?_setCol_ne, Table.getCol?_setCol_self]
        exact Table.getCol?_eq_none_of_hasCol_false df _ hf5
      · intro _
        constructor
        · rw [Table.getCol?_setCol_ne _ _ _ _ (by decide),
            Table.getCol?_setCol_ne _ _ _ _ (by decide),
            Table.getCol?_setCol_ne _ _ _ _ (by decide),
            Table.getCol?_setCol_self]
        · rw [Table.getCol?_setCol_ne _ _ _ _ (by decide),
            Table.getCol?_setCol_ne _ _ _ _ (by decide),
            Table.getCol?_setCol_self]
    | some pm =>
      refine ⟨((((df.setCol "total_services"
            (sumAcross df (serviceColNames df) df.nrows)).setCol
          "service_density" (List.zipWith (fun s t => s / (t + 1))
            (sumAcross df (serviceColNames df) df.nrows) tv)).setCol
          "customer_value_segment" (cut4 tcv)).setCol
          "tenure_stability" (List.map tenureStabilityVal tv)).setCol
          "high_risk_payment" (List.map (fun p => if p = 2 then 1 else 0) pm),
        ?_, ?_, ?_, ?_, ?_, ?_, ?_, ?_⟩
      · simp [create_aggregated_features, hs, htc, ht, hpm,
          Table.getCol?_setCol_ne]
      · intro c hc
        simp only [aggFeatureNames, List.mem_cons, List.not_mem_nil, or_false,
          not_or] at hc
        obtain ⟨h1, h2, h3, h4, h5⟩ := hc
        rw [Table.getCol?_setCol_ne _ _ _ _ h5, Table.getCol?_setCol_ne _ _ _ _ h4,
          Table.getCol?_setCol_ne _ _ _ _ h3, Table.getCol?_setCol_ne _ _ _ _ h2,
          Table.getCol?_setCol_ne _ _ _ _ h1]
      · simp [Table.hasCol_setCol, hs]
      · simp [Table.hasCol_setCol, hs]
      · simp [Table.hasCol_setCol]
      · simp [Table.hasCol_setCol]
      · simp [Table.hasCol_setCol, Table.hasCol_eq_isSome, hpm,
          Table.getCol?_setCol_ne, Table.getCol?_setCol_self]
      · intro _
        constructor
        · rw [Table.getCol?_setCol_ne _ _ _ _ (by decide),
            Table.getCol?_setCol_ne _ _ _ _ (by decide),
            Table.getCol?_setCol_ne _ _ _ _ (by decide),
            Table.getCol?_setCol_ne _ _ _ _ (by decide),
            Table.getCol?_setCol_self]
        · rw [Table.getCol?_setCol_ne _ _ _ _ (by decide),
            Table.getCol?_setCol_ne _ _ _ _ (by decide),
            Table.getCol?_setCol_ne _ _ _ _ (by decide),
            Table.getCol?_setCol_self]

/-- The feature names written by `create_feature_interactions`. -/
def interFeatureNames : List String :=
  ["tenure_monthly_interaction", "tenure_total_interaction",
   "services_charges_interaction", "contract_payment_interaction"]

/-- Execution of `create_feature_interactions` on an input holding `tenure`,
`MonthlyCharges` and `TotalCharges` (and none of the names this stage
writes): it succeeds, keeps every original column, always adds the two
tenure-charge interactions, and adds the two guarded interactions exactly
when their source columns are present. -/
theorem create_feature_interactions_spec (df : Df)
    (t : List ℚ) (ht : df.getCol? "tenure" = some t)
    (mc : List ℚ) (hmc : df.getCol? "MonthlyCharges" = some mc)
    (tc : List ℚ) (htc : df.getCol? "TotalCharges" = some tc)
    (hfresh : ∀ c ∈ interFeatureNames, df.hasCol c = false) :
    ∃ out, create_feature_interactions df = Except.ok out ∧
      (∀ c, c ∉ interFeatureNames → out.getCol? c = df.getCol? c) ∧
      out.hasCol "tenure_monthly_interaction" = true ∧
      out.hasCol "tenure_total_interaction" = true ∧
      out.hasCol "services_charges_interaction" = df.hasCol "total_services" ∧
      out.hasCol "contract_payment_interaction"
        = (df.hasCol "Contract" && df.hasCol "PaymentMethod") := by
  have hfsci : df.hasCol "services_charges_interaction" = false :=
    hfresh _ (by decide)
  have hfcpi : df.hasCol "contract_payment_interaction" = false :=
    hfresh _ (by decide)
  cases hts : df.hasCol "total_services" with
  | true =>
    have hsome : (df.getCol? "total_services").isSome := by
      rw [← Table.hasCol_eq_isSome]
      exact hts
    obtain ⟨ts, hts'⟩ := Option.isSome_iff_exists.mp hsome
    cases hguard : df.hasCol "Contract" && df.hasCol "PaymentMethod" with
    | true =>
      obtain ⟨hcb, hpb⟩ : Table.hasCol df "Contract" = true ∧
          Table.hasCol df "PaymentMethod" = true := by
        simpa using hguard
      obtain ⟨cv, hcv⟩ := Option.isSome_iff_exists.mp
        (by rw [← Table.hasCol_eq_isSome]; exact hcb)
      obtain ⟨pv, hpv⟩ := Option.isSome_iff_exists.mp
        (by rw [← Table.hasCol_eq_isSome]; exact hpb)
      refine ⟨(((df.setCol "tenure_monthly_interaction"
            (List.zipWith (· * ·) t mc)).setCol "tenure_total_interaction"
            (List.zipWith (· * ·) t tc)).setCol "services_charges_interaction"
            (List.zipWith (· * ·) ts mc)).setCol "contract_payment_interaction"
            (List.zipWith (· * ·) cv pv),
        ?_, ?_, ?_, ?_, ?_, ?_⟩
      · simp [create_feature_interactions, ht, hmc, htc, hts, hts', hguard,
          hcv, hpv, Table.getCol?_setCol_ne]
      · intro c hc
        simp only [interFeatureNames, List.mem_cons, List.not_mem_nil, or_false,
          not_or] at hc
        obtain ⟨h1, h2, h3, h4⟩ := hc
        rw [Table.getCol?_setCol_ne _ _ _ _ h4, Table.getCol?_setCol_ne _ _ _ _ h3,
          Table.getCol?_setCol_ne _ _ _ _ h2, Table.getCol?_setCol_ne _ _ _ _ h1]
      · simp [Table.hasCol_setCol]
      · simp [Table.hasCol_setCol]
      · simp [Table.hasCol_setCol, hts]
      · simp [Table.hasCol_setCol, hguard]
    | false =>
      refine ⟨((df.setCol "tenure_monthly_interaction"
            (List.zipWith (· * ·) t mc)).setCol "tenure_total_interaction"
            (List.zipWith (· * ·) t tc)).setCol "services_charges_interaction"
            (List.zipWith (· * ·) ts mc),
        ?_, ?_, ?_, ?_, ?_, ?_⟩
      · simp [create_feature_interactions, ht, hmc, htc, hts, hts', hguard,
          Table.getCol?_setCol_ne]
      · intro c hc
        simp only [interFeatureNames, List.mem_cons, List.not_mem_nil, or_false,
          not_or] at hc
        obtain ⟨h1, h2, h3, h4⟩ := hc
        rw [Table.getCol?_setCol_ne _ _ _ _ h3, Table.getCol?_setCol_ne _ _ _ _ h2,
          Table.getCol?_setCol_ne _ _ _ _ h1]
      · simp [Table.hasCol_setCol]
      · simp [Table.hasCol_setCol]
      · simp [Table.hasCol_setCol, hts]
      · simp [Table.hasCol_setCol, hguard, Table.hasCol_eq_isSome,
          Table.getCol?_setCol_ne, Table.getCol?_setCol_self]
        exact Table.getCol?_eq_none_of_hasCol_false df _ hfcpi
  | false =>
    cases hguard : df.hasCol "Contract" && df.hasCol "PaymentMethod" with
    | true =>
      obtain ⟨hcb, hpb⟩ : Table.hasCol df "Contract" = true ∧
          Table.hasCol df "PaymentMethod" = true := by
        simpa using hguard
      obtain ⟨cv, hcv⟩ := Option.isSome_iff_exists.mp
        (by rw [← Table.hasCol_eq_isSome]; exact hcb)
      obtain ⟨pv, hpv⟩ := Option.isSome_iff_exists.mp
        (by rw [← Table.hasCol_eq_isSome]; exact hpb)
      refine ⟨((df.setCol "tenure_monthly_interaction"
            (List.zipWith (· * ·) t mc)).setCol "tenure_total_interaction"
            (List.zipWith (· * ·) t tc)).setCol "contract_payment_interaction"
            (List.zipWith (· * ·) cv pv),
        ?_, ?_, ?_, ?_, ?_, ?_⟩
      · simp [create_feature_interactions, ht, hmc, htc, hts, hguard,
          hcv, hpv, Table.getCol?_setCol_ne]
      · intro c hc
        simp only [interFeatureNames, List.mem_cons, List.not_mem_nil, or_false,
          not_or] at hc
        obtain ⟨h1, h2, h3, h4⟩ := hc
        rw [Table.getCol?_setCol_ne _ _ _ _ h4, Table.getCol?_setCol_ne _ _ _ _ h2,
          Table.getCol?_setCol_ne _ _ _ _ h1]
      · simp [Table.hasCol_setCol]
      · simp [Table.hasCol_setCol]
      · simp [Table.hasCol_setCol, hts, Table.hasCol_eq_isSome,
          Table.getCol?_setCol_ne, Table.getCol?_setCol_self]
        exact Table.getCol?_eq_none_of_hasCol_false df _ hfsci
      · simp [Table.hasCol_setCol, hguard]
    | false =>
      refine ⟨(df.setCol "tenure_monthly_interaction"
            (List.zipWith (· * ·) t mc)).setCol "tenure_total_interaction"
            (List.zipWith (· * ·) t tc),
        ?_, ?_, ?_, ?_, ?_, ?_⟩
      · simp [create_feature_interactions, ht, hmc, htc, hts, hguard,
          Table.getCol?_setCol_ne]
      · intro c hc
        simp only [interFeatureNames, List.mem_cons, List.not_mem_nil, or_false,
          not_or] at hc
        obtain ⟨h1, h2, h3, h4⟩ := hc
        rw [Table.getCol?_setCol_ne _ _ _ _ h2, Table.getCol?_setCol_ne _ _ _ _ h1]
      · simp [Table.hasCol_setCol]
      · simp [Table.hasCol_setCol]
      · simp [Table.hasCol_setCol, hts, Table.hasCol_eq_isSome,
          Table.getCol?_setCol_ne, Table.getCol?_setCol_self]
        exact Table.getCol?_eq_none_of_hasCol_false df _ hfsci
      · simp [Table.hasCol_setCol, hguard, Table.hasCol_eq_isSome,
          Table.getCol?_setCol_ne, Table.getCol?_setCol_self]
        exact Table.getCol?_eq_none_of_hasCol_false df _ hfcpi

theorem lookupCol_mem {α : Type} {l : List (String × List α)} {n : String}
    {v : List α} (h : lookupCol n l = some v) : (n, v) ∈ l := by
  induction l with
  | nil => simp [lookupCol] at h
  | cons c cs ih =>
    by_cases hc : c.1 = n
    · simp only [lookupCol, beq_iff_eq, hc, if_true, Option.some.injEq] at h
      subst h
      rw [show (n, c.2) = c by rw [← hc]]
      exact List.mem_cons_self c cs
    · simp only [lookupCol, beq_iff_eq, hc, if_false] at h
      exact List.mem_cons_of_mem c (ih h)

theorem Table.getCol?_mem {α : Type} {t : Table α} {n : String} {v : List α}
    (h : t.getCol? n = some v) : (n, v) ∈ t.cols :=
  lookupCol_mem h

theorem Table.length_of_wf {α : Type} {t : Table α} {n : Nat} {c : String}
    {v : List α} (hwf : t.wf n) (h : t.getCol? c = some v) : v.length = n :=
  hwf _ (Table.getCol?_mem h)

theorem Table.nrows_of_wf {α : Type} {t : Table α} {n : Nat}
    (hwf : t.wf n) (hne : t.cols ≠ []) : t.nrows = n := by
  match hh : t.cols with
  | [] => exact absurd hh hne
  | c :: cs =>
    have hc : c ∈ t.cols := by rw [hh]; exact List.mem_cons_self c cs
    simp [Table.nrows, hh, hwf c hc]

theorem getD_zipWith (f : ℚ → ℚ → ℚ) (a b : List ℚ) (i : Nat)
    (ha : i < a.length) (hb : i < b.length) :
    (List.zipWith f a b).getD i 0 = f (a.getD i 0) (b.getD i 0) := by
  induction a generalizing b i with
  | nil => simp at ha
  | cons x xs ih =>
    cases b with
    | nil => simp at hb
    | cons y ys =>
      cases i with
      | zero => simp
      | succ j =>
        simp only [List.zipWith_cons_cons, List.getD_cons_succ]
        exact ih ys j (by simpa using ha) (by simpa using hb)

theorem getD_range_map (n i : Nat) (f : Nat → ℚ) (h : i < n) :
    (((List.range n).map f)).getD i 0 = f i := by
  rw [List.getD_eq_getElem?_getD, List.getElem?_map, List.getElem?_range h]
  rfl

/-- On 0/1-valued lists, the sum equals the count of truthy (non-zero)
entries.  This is the bridge between the code's row-wise sum and the claim's
truthy count; it fails as soon as a value outside {0, 1} appears. -/
theorem sum_eq_truthy_count (l : List ℚ) (h : ∀ v ∈ l, v = 0 ∨ v = 1) :
    l.sum = (l.countP (fun v => decide (v ≠ 0)) : ℚ) := by
  induction l with
  | nil => simp
  | cons x xs ih =>
    have hx := h x (List.mem_cons_self x xs)
    have htail := ih (fun v hv => h v (List.mem_cons_of_mem x hv))
    rcases hx with h0 | h1
    · subst h0
      simp only [List.sum_cons, List.countP_cons, htail]
      norm_num
    · subst h1
      simp only [List.sum_cons, List.countP_cons, htail]
      norm_num
      ring

/-- All names written by the two feature-engineering stages. -/
def derivedFeatureNames : List String := aggFeatureNames ++ interFeatureNames

/-- An input lacking `TotalCharges` (tenure and MonthlyCharges present, no
service columns); and one lacking `MonthlyCharges`. -/
def c1NoTotalCharges : Df := ⟨[("tenure", [1, 2]), ("MonthlyCharges", [10, 20])]⟩

def c1NoMonthlyCharges : Df := ⟨[("tenure", [1]), ("TotalCharges", [100])]⟩

/-- C1 (counterexample): the claim that a missing source column is always
silently skipped is false: `create_aggregated_features` raises `KeyError`
when `TotalCharges` is absent (it is accessed unconditionally for
`customer_value_segment`), and `create_feature_interactions` raises
`KeyError` when `MonthlyCharges` is absent. -/
theorem c1_claim_counterexample :
    create_aggregated_features c1NoTotalCharges
      = Except.error "KeyError: TotalCharges" ∧
    create_feature_interactions c1NoMonthlyCharges
      = Except.error "KeyError: MonthlyCharges" := by
  constructor <;> rfl

/-- C1 (amended): only the explicitly guarded features are silently skipped.
Provided the unconditionally accessed sources `tenure`, `MonthlyCharges` and
`TotalCharges` are present (and the input does not already use one of the
derived names), the two stages succeed, keep every original column unchanged,
always add `customer_value_segment`, `tenure_stability` and the two
tenure-charge interactions, and add each guarded feature exactly when its
source columns are present.  Inputs lacking `tenure`, `MonthlyCharges` or
`TotalCharges` instead raise a `KeyError` (see the counterexample). -/
theorem c1_conditional_feature_creation (df : Df)
    (tv : List ℚ) (ht : df.getCol? "tenure" = some tv)
    (mcv : List ℚ) (hmc : df.getCol? "MonthlyCharges" = some mcv)
    (tcv : List ℚ) (htc : df.getCol? "TotalCharges" = some tcv)
    (hfresh : ∀ c ∈ derivedFeatureNames, df.hasCol c = false) :
    ∃ out, (create_aggregated_features df).bind create_feature_interactions
        = Except.ok out ∧
      (∀ c, c ∉ derivedFeatureNames → out.getCol? c = df.getCol? c) ∧
      out.hasCol "customer_value_segment" = true ∧
      out.hasCol "tenure_stability" = true ∧
      out.hasCol "tenure_monthly_interaction" = true ∧
      out.hasCol "tenure_total_interaction" = true ∧
      out.hasCol "total_services" = !(serviceColNames df).isEmpty ∧
      out.hasCol "service_density" = !(serviceColNames df).isEmpty ∧
      out.hasCol "services_charges_interaction"
        = !(serviceColNames df).isEmpty ∧
      out.hasCol "high_risk_payment" = df.hasCol "PaymentMethod" ∧
      out.hasCol "contract_payment_interaction"
        = (df.hasCol "Contract" && df.hasCol "PaymentMethod") := by
  have hfreshA : ∀ c ∈ aggFeatureNames, df.hasCol c = false := by
    intro c hcm
    exact hfresh c (List.mem_append_left _ hcm)
  obtain ⟨o1, hrun1, hpres1, hts1, hsd1, hcvs1, htst1, hhrp1, hval1⟩ :=
    create_aggregated_features_spec df tv ht tcv htc hfreshA
  have ht1 : o1.getCol? "tenure" = some tv := by
    rw [hpres1 _ (by decide)]
    exact ht
  have hmc1 : o1.getCol? "MonthlyCharges" = some mcv := by
    rw [hpres1 _ (by decide)]
    exact hmc
  have htc1 : o1.getCol? "TotalCharges" = some tcv := by
    rw [hpres1 _ (by decide)]
    exact htc
  have hfresh1 : ∀ c ∈ interFeatureNames, o1.hasCol c = false := by
    intro c hcm
    have hna : c ∉ aggFeatureNames := by
      simp only [interFeatureNames, List.mem_cons, List.not_mem_nil,
        or_false] at hcm
      rcases hcm with h | h | h | h <;> subst h <;> decide
    rw [Table.hasCol_eq_isSome, hpres1 c hna, ← Table.hasCol_eq_isSome]
    exact hfresh c (List.mem_append_right _ hcm)
  obtain ⟨o2, hrun2, hpres2, htmi2, htti2, hsci2, hcpi2⟩ :=
    create_feature_interactions_spec o1 tv ht1 mcv hmc1 tcv htc1 hfresh1
  have hcolA : ∀ c, c ∉ interFeatureNames → o2.hasCol c = o1.hasCol c := by
    intro c hcm
    rw [Table.hasCol_eq_isSome, hpres2 c hcm, ← Table.hasCol_eq_isSome]
  have hcolB : ∀ c, c ∉ aggFeatureNames → o1.hasCol c = df.hasCol c := by
    intro c hcm
    rw [Table.hasCol_eq_isSome, hpres1 c hcm, ← Table.hasCol_eq_isSome]
  refine ⟨o2, ?_, ?_, ?_, ?_, htmi2, htti2, ?_, ?_, ?_, ?_, ?_⟩
  · rw [hrun1]
    exact hrun2
  · intro c hc
    rw [hpres2 c (fun hm => hc (List.mem_append_right _ hm)),
      hpres1 c (fun hm => hc (List.mem_append_left _ hm))]
  · rw [hcolA _ (by decide)]
    exact hcvs1
  · rw [hcolA _ (by decide)]
    exact htst1
  · rw [hcolA _ (by decide)]
    exact hts1
  · rw [hcolA _ (by decide)]
    exact hsd1
  · rw [hsci2]
    exact hts1
  · rw [hcolA _ (by decide)]
    exact hhrp1
  · rw [hcpi2, hcolB _ (by decide), hcolB _ (by decide)]

/-- A concrete end-to-end input for C1's amended theorem: base columns, one
service column, and the `Contract`/`PaymentMethod` pair. -/
def c1WitnessDf : Df :=
  ⟨[("customerID", [1]), ("tenure", [5]), ("MonthlyCharges", [70]),
    ("TotalCharges", [350]), ("PhoneService", [1]), ("Contract", [1]),
    ("PaymentMethod", [2])]⟩

/-- Witness for C1's amended theorem at a concrete input. -/
theorem c1_conditional_feature_creation_witness :
    ∃ out,
      (create_aggregated_features c1WitnessDf).bind create_feature_interactions
        = Except.ok out ∧
      (∀ c, c ∉ derivedFeatureNames → out.getCol? c = c1WitnessDf.getCol? c) ∧
      out.hasCol "customer_value_segment" = true ∧
      out.hasCol "tenure_stability" = true ∧
      out.hasCol "tenure_monthly_interaction" = true ∧
      out.hasCol "tenure_total_interaction" = true ∧
      out.hasCol "total_services" = !(serviceColNames c1WitnessDf).isEmpty ∧
      out.hasCol "service_density" = !(serviceColNames c1WitnessDf).isEmpty ∧
      out.hasCol "services_charges_interaction"
        = !(serviceColNames c1WitnessDf).isEmpty ∧
      out.hasCol "high_risk_payment" = c1WitnessDf.hasCol "PaymentMethod" ∧
      out.hasCol "contract_payment_interaction"
        = (c1WitnessDf.hasCol "Contract" && c1WitnessDf.hasCol "PaymentMethod") :=
  c1_conditional_feature_creation c1WitnessDf
    [5] (by decide) [70] (by decide) [350] (by decide) (by decide)

/-- An input whose only service column holds the label-encoded value 2
(e.g. `InternetService` after label encoding): the row-wise sum is 2, but
only one service column is truthy. -/
def c5Df : Df := ⟨[("InternetService", [2]), ("tenure", [0]), ("TotalCharges", [100])]⟩

/-- C5 (counterexample): `total_services` is the row-wise SUM of the detected
service columns, not the count of truthy ones.  On `c5Df` the stored value is
2 while exactly one detected service column is truthy. -/
theorem c5_claim_counterexample :
    ∃ out, create_aggregated_features c5Df = Except.ok out ∧
      out.getCol? "total_services" = some [2] ∧
      (serviceColNames c5Df).countP
        (fun c => decide (cellAt c5Df c 0 ≠ 0)) = 1 := by
  obtain ⟨out, hrun, hpres, hts, hsd, hcvs, htst, hhrp, hval⟩ :=
    create_aggregated_features_spec c5Df [0] (by decide) [100] (by decide)
      (by decide)
  obtain ⟨hvalT, _⟩ := hval (by decide)
  have h1 : serviceColNames c5Df = ["InternetService"] := by decide
  have h2 : Table.nrows c5Df = 1 := by decide
  have h3 : cellAt c5Df "InternetService" 0 = 2 := by decide
  refine ⟨out, hrun, ?_, by decide⟩
  rw [hvalT, h1, h2]
  congr 1
  unfold sumAcross
  rw [show List.range 1 = [0] from rfl]
  simp only [List.map_cons, List.map_nil, List.sum_cons, List.sum_nil]
  rw [h3]
  norm_num

/-- C5 (amended): on every rectangular input with at least one detected
service column and the `tenure` and `TotalCharges` columns (and no derived
names), `create_aggregated_features` sets, in every row, `total_services` to
the row-wise sum of the detected service-column values — which equals the
count of truthy service columns exactly when those values are all 0/1 — and
`service_density` to `total_services / (tenure + 1)`. -/
theorem c5_total_services_characterization (df : Df) (n : Nat) (hwf : df.wf n)
    (tv : List ℚ) (ht : df.getCol? "tenure" = some tv)
    (tcv : List ℚ) (htc : df.getCol? "TotalCharges" = some tcv)
    (hsvc : (serviceColNames df).isEmpty = false)
    (hfresh : ∀ c ∈ aggFeatureNames, df.hasCol c = false) :
    ∃ out totals dens, create_aggregated_features df = Except.ok out ∧
      out.getCol? "total_services" = some totals ∧
      out.getCol? "service_density" = some dens ∧
      (∀ i, i < n →
        totals.getD i 0
          = ((serviceColNames df).map (fun c => cellAt df c i)).sum) ∧
      (∀ i, i < n → dens.getD i 0 = totals.getD i 0 / (tv.getD i 0 + 1)) ∧
      (∀ i, i < n →
        (∀ c ∈ serviceColNames df, cellAt df c i = 0 ∨ cellAt df c i = 1) →
        totals.getD i 0
          = ((serviceColNames df).countP
              (fun c => decide (cellAt df c i ≠ 0)) : ℚ)) := by
  have hne : df.cols ≠ [] := by
    intro habs
    rw [Table.getCol?, habs] at ht
    simp [lookupCol] at ht
  have hn : df.nrows = n := Table.nrows_of_wf hwf hne
  have htvlen : tv.length = n := Table.length_of_wf hwf ht
  obtain ⟨out, hrun, hpres, hts, hsd, hcvs, htst, hhrp, hval⟩ :=
    create_aggregated_features_spec df tv ht tcv htc hfresh
  obtain ⟨hvalT, hvalD⟩ := hval hsvc
  rw [hn] at hvalT hvalD
  have htotlen : (sumAcross df (serviceColNames df) n).length = n := by
    simp [sumAcross]
  have hgetT : ∀ i, i < n →
      (sumAcross df (serviceColNames df) n).getD i 0
        = ((serviceColNames df).map (fun c => cellAt df c i)).sum := by
    intro i hi
    unfold sumAcross
    exact getD_range_map n i _ hi
  refine ⟨out, sumAcross df (serviceColNames df) n,
    List.zipWith (fun s t => s / (t + 1)) (sumAcross df (serviceColNames df) n) tv,
    hrun, hvalT, hvalD, hgetT, ?_, ?_⟩
  · intro i hi
    exact getD_zipWith _ _ _ i (by rw [htotlen]; exact hi)
      (by rw [htvlen]; exact hi)
  · intro i hi h01
    rw [hgetT i hi]
    rw [sum_eq_truthy_count _ (by
      intro v hv
      obtain ⟨c, hcm, hcv⟩ := List.mem_map.mp hv
      rw [← hcv]
      exact h01 c hcm)]
    rw [List.countP_map]
    rfl

/-- A concrete rectangular input for C5's amended theorem: two service
columns with 0/1 values. -/
def c5WitnessDf : Df :=
  ⟨[("tenure", [5, 0]), ("TotalCharges", [350, 10]),
    ("PhoneService", [1, 0]), ("InternetService", [1, 1])]⟩

/-- Witness for C5's amended theorem at a concrete input. -/
theorem c5_total_services_characterization_witness :
    ∃ out totals dens, create_aggregated_features c5WitnessDf = Except.ok out ∧
      out.getCol? "total_services" = some totals ∧
      out.getCol? "service_density" = some dens ∧
      (∀ i, i < 2 →
        totals.getD i 0
          = ((serviceColNames c5WitnessDf).map
              (fun c => cellAt c5WitnessDf c i)).sum) ∧
      (∀ i, i < 2 →
        dens.getD i 0 = totals.getD i 0 / (([(5:ℚ), 0]).getD i 0 + 1)) ∧
      (∀ i, i < 2 →
        (∀ c ∈ serviceColNames c5WitnessDf,
          cellAt c5WitnessDf c i = 0 ∨ cellAt c5WitnessDf c i = 1) →
        totals.getD i 0
          = ((serviceColNames c5WitnessDf).countP
              (fun c => decide (cellAt c5WitnessDf c i ≠ 0)) : ℚ)) :=
  c5_total_services_characterization c5WitnessDf 2 (by unfold Table.wf; decide)
    [5, 0] (by decide) [350, 10] (by decide) (by decide) (by decide)

/-! ### Feature metadata (`update_feature_metadata`) -/

/-- One row of the `feature_metadata` table. -/
structure MetaRow where
  feature_name : String
  feature_type : String
  description : String
  transformation_applied : String
  created_date : String
deriving DecidableEq

/-- The type heuristic of `update_feature_metadata`: Python
`'categorical' if '_encoded' in column else 'numerical'` — a substring
test, not a suffix test. -/
def featureTypeOf (column : String) : String :=
  if strContains column "_encoded" then "categorical" else "numerical"

/-- Delete every row with the given key (the conflict clause of
`INSERT OR REPLACE`). -/
def dropMeta (m : List MetaRow) (name : String) : List MetaRow :=
  match m with
  | [] => []
  | r :: rs =>
    if r.feature_name == name then dropMeta rs name
    else r :: dropMeta rs name

/-- SQLite `INSERT OR REPLACE` keyed on the `feature_name` primary key:
the conflicting row is deleted and the new row inserted. -/
def upsertMeta (m : List MetaRow) (row : MetaRow) : List MetaRow :=
  dropMeta m row.feature_name ++ [row]

/-- The metadata row written for a column at a given time. -/
def metaRowFor (column now : String) : MetaRow :=
  ⟨column, featureTypeOf column, "Feature: " ++ column,
   "StandardScaler/LabelEncoder", now⟩

/-- `update_feature_metadata`: one upsert per column of the DataFrame,
skipping the two timestamp columns. -/
def update_feature_metadata (meta : List MetaRow) (columns : List String)
    (now : String) : List MetaRow :=
  match columns with
  | [] => meta
  | column :: rest =>
    update_feature_metadata
      (if column ∈ ["created_timestamp", "updated_timestamp"] then meta
       else upsertMeta meta (metaRowFor column now)) rest now

/-- Row lookup by `feature_name` (the primary key). -/
def lookupMeta (m : List MetaRow) (name : String) : Option MetaRow :=
  match m with
  | [] => none
  | r :: rs => if r.feature_name == name then some r else lookupMeta rs name

theorem lookupMeta_upsert_self (m : List MetaRow) (row : MetaRow) :
    lookupMeta (upsertMeta m row) row.feature_name = some row := by
  induction m with
  | nil => simp [upsertMeta, dropMeta, lookupMeta]
  | cons r rs ih =>
    by_cases hr : r.feature_name = row.feature_name
    · simpa [upsertMeta, dropMeta, lookupMeta, hr] using ih
    · simpa [upsertMeta, dropMeta, lookupMeta, hr] using ih

theorem lookupMeta_upsert_ne (m : List MetaRow) (row : MetaRow) (c : String)
    (h : c ≠ row.feature_name) :
    lookupMeta (upsertMeta m row) c = lookupMeta m c := by
  have hnm : ¬ row.feature_name = c := fun hh => h hh.symm
  induction m with
  | nil => simp [upsertMeta, dropMeta, lookupMeta, hnm]
  | cons r rs ih =>
    by_cases hr : r.feature_name = row.feature_name
    · simpa [upsertMeta, dropMeta, lookupMeta, hr, hnm] using ih
    · by_cases hrc : r.feature_name = c
      · simp [upsertMeta, dropMeta, lookupMeta, hr, hrc, hnm, h]
      · simpa [upsertMeta, dropMeta, lookupMeta, hr, hrc, hnm] using ih

/-- The final metadata table maps every non-timestamp column of the batch to
the freshly written row, and leaves other keys untouched. -/
theorem lookupMeta_update (meta : List MetaRow) (columns : List String)
    (now c : String) :
    lookupMeta (update_feature_metadata meta columns now) c
      = if c ∈ columns ∧ c ∉ ["created_timestamp", "updated_timestamp"]
        then some (metaRowFor c now)
        else lookupMeta meta c := by
  induction columns generalizing meta with
  | nil => simp [update_feature_metadata]
  | cons d rest ih =>
    rw [update_feature_metadata, ih]
    by_cases hts : c ∈ ["created_timestamp", "updated_timestamp"]
    · have hc1 : ¬ (c ∈ rest ∧
          c ∉ ["created_timestamp", "updated_timestamp"]) :=
        fun hh => hh.2 hts
      have hc2 : ¬ (c ∈ d :: rest ∧
          c ∉ ["created_timestamp", "updated_timestamp"]) :=
        fun hh => hh.2 hts
      rw [if_neg hc1, if_neg hc2]
      by_cases hd : d ∈ ["created_timestamp", "updated_timestamp"]
      · rw [if_pos hd]
      · rw [if_neg hd, lookupMeta_upsert_ne]
        intro hh
        rw [hh] at hts
        exact hd hts
    · by_cases hcr : c ∈ rest
      · have hc1 : c ∈ rest ∧
            c ∉ ["created_timestamp", "updated_timestamp"] := ⟨hcr, hts⟩
        have hc2 : c ∈ d :: rest ∧
            c ∉ ["created_timestamp", "updated_timestamp"] :=
          ⟨List.mem_cons_of_mem d hcr, hts⟩
        rw [if_pos hc1, if_pos hc2]
      · have hc1 : ¬ (c ∈ rest ∧
            c ∉ ["created_timestamp", "updated_timestamp"]) :=
          fun hh => hcr hh.1
        by_cases hcd : c = d
        · subst hcd
          have hc2 : c ∈ c :: rest ∧
              c ∉ ["created_timestamp", "updated_timestamp"] :=
            ⟨List.mem_cons_self c rest, hts⟩
          rw [if_neg hc1, if_pos hc2, if_neg hts]
          exact lookupMeta_upsert_self meta (metaRowFor c now)
        · have hc2 : ¬ (c ∈ d :: rest ∧
              c ∉ ["created_timestamp", "updated_timestamp"]) := by
            intro hh
            rcases List.mem_cons.mp hh.1 with h | h
            · exact hcd h
            · exact hcr h
          rw [if_neg hc1, if_neg hc2]
          by_cases hd : d ∈ ["created_timestamp", "updated_timestamp"]
          · rw [if_pos hd]
          · rw [if_neg hd, lookupMeta_upsert_ne _ _ _ hcd]

/-- A column name containing `_encoded` strictly inside, not as a suffix. -/
def c6Column : String := "risk_encoded_flag"

/-- C6 (counterexample): `update_feature_metadata` records the type by a
substring test, not a suffix test: the column `risk_encoded_flag` does not
end in `_encoded` yet is recorded as `categorical`. -/
theorem c6_claim_counterexample :
    (lookupMeta (update_feature_metadata [] [c6Column] "2025-01-01")
        c6Column).map (fun r => r.feature_type) = some "categorical" ∧
    strEndsWith c6Column "_encoded" = false := by
  constructor <;> rfl

/-- C6 (amended): for every column except the two timestamp columns,
`update_feature_metadata` records `feature_type` as `categorical` if and only
if the column name CONTAINS the substring `_encoded` (and `numerical`
otherwise); the test is containment, not the suffix test the claim states. -/
theorem c6_feature_type_characterization (meta : List MetaRow)
    (columns : List String) (now c : String)
    (hc : c ∈ columns) (hts : c ∉ ["created_timestamp", "updated_timestamp"]) :
    ∃ row, lookupMeta (update_feature_metadata meta columns now) c = some row ∧
      (row.feature_type = "categorical" ↔ strContains c "_encoded" = true) ∧
      (row.feature_type = "numerical" ↔ strContains c "_encoded" = false) := by
  refine ⟨metaRowFor c now, ?_, ?_, ?_⟩
  · rw [lookupMeta_update]
    rw [if_pos ⟨hc, hts⟩]
  · unfold metaRowFor featureTypeOf
    by_cases h : strContains c "_encoded" = true <;> simp [h]
  · unfold metaRowFor featureTypeOf
    by_cases h : strContains c "_encoded" = true <;> simp [h]

/-- Witness for C6's amended theorem at a concrete input. -/
theorem c6_feature_type_characterization_witness :
    ∃ row, lookupMeta (update_feature_metadata []
        ["tenure", "gender_encoded"] "2025-01-01") "gender_encoded"
        = some row ∧
      (row.feature_type = "categorical"
        ↔ strContains "gender_encoded" "_encoded" = true) ∧
      (row.feature_type = "numerical"
        ↔ strContains "gender_encoded" "_encoded" = false) :=
  c6_feature_type_characterization [] _ "2025-01-01" "gender_encoded"
    (by decide) (by decide)

/-! ### Feature scaling (`apply_feature_scaling`)

A DataFrame with dtype information: each column carries its name, a
numeric-dtype flag (`select_dtypes(include=[np.number])`) and its values.
The sklearn scalers are external to this repository and `fit_transform`
scales each column independently, so they are modelled as opaque per-column
transforms; the theorem characterizes which columns each transform reaches
and which columns are returned untouched. -/

structure SDf where
  cols : List (String × Bool × List ℚ)
deriving DecidableEq

/-- `numerical_features = df.select_dtypes(include=[np.number]).columns`. -/
def numericalFeaturesOf (df : SDf) : List String :=
  (df.cols.filter (fun c => c.2.1)).map (fun c => c.1)

/-- The default `features_to_scale`: numeric columns not ending in `_encoded`
and not in the fixed exclusion list. -/
def featuresToScaleOf (df : SDf) : List String :=
  (numericalFeaturesOf df).filter (fun col =>
    !(strEndsWith col "_encoded") &&
      !(["Churn", "tenure_group", "customer_value_segment"].contains col))

/-- `standard_features`: those of the fixed triple that are to be scaled. -/
def standardFeaturesOf (df : SDf) : List String :=
  (["tenure", "MonthlyCharges", "TotalCharges"]).filter
    (fun col => (featuresToScaleOf df).contains col)

/-- `minmax_features`: the remaining features to scale. -/
def minmaxFeaturesOf (df : SDf) : List String :=
  (featuresToScaleOf df).filter
    (fun col => !((standardFeaturesOf df).contains col))

/-- `apply_feature_scaling` in the `features_to_scale = None` case. -/
def apply_feature_scaling (stdT mmT : List ℚ → List ℚ) (df : SDf) : SDf :=
  ⟨df.cols.map (fun c =>
    if (standardFeaturesOf df).contains c.1 then (c.1, c.2.1, stdT c.2.2)
    else if (minmaxFeaturesOf df).contains c.1 then (c.1, c.2.1, mmT c.2.2)
    else c)⟩

theorem apply_feature_scaling_length (stdT mmT : List ℚ → List ℚ) (df : SDf) :
    (apply_feature_scaling stdT mmT df).cols.length = df.cols.length := by
  simp [apply_feature_scaling]

/-- The column treatment claimed by the specification: excluded names are
returned unchanged, the numeric fixed triple is standard-scaled, every other
eligible numeric column is min-max scaled, non-numeric columns untouched. -/
def scaleEntry (stdT mmT : List ℚ → List ℚ) (c : String × Bool × List ℚ) :
    String × Bool × List ℚ :=
  if strEndsWith c.1 "_encoded"
      || (["Churn", "tenure_group", "customer_value_segment"].contains c.1) then c
  else if c.2.1 && (["tenure", "MonthlyCharges", "TotalCharges"].contains c.1) then
    (c.1, c.2.1, stdT c.2.2)
  else if c.2.1 then (c.1, c.2.1, mmT c.2.2)
  else c

theorem nodup_fst_inj {α : Type} {l : List (String × α)}
    (hnd : (l.map Prod.fst).Nodup) {a b : String × α}
    (ha : a ∈ l) (hb : b ∈ l) (h : a.1 = b.1) : a = b := by
  induction l with
  | nil => simp at ha
  | cons x xs ih =>
    simp only [List.map_cons, List.nodup_cons] at hnd
    rcases List.mem_cons.mp ha with ha1 | ha1 <;>
      rcases List.mem_cons.mp hb with hb1 | hb1
    · rw [ha1, hb1]
    · exfalso
      have hm : b.1 ∈ xs.map Prod.fst := List.mem_map_of_mem Prod.fst hb1
      rw [ha1] at h
      rw [← h] at hm
      exact hnd.1 hm
    · exfalso
      have hm : a.1 ∈ xs.map Prod.fst := List.mem_map_of_mem Prod.fst ha1
      rw [hb1] at h
      rw [h] at hm
      exact hnd.1 hm
    · exact ih hnd.2 ha1 hb1

theorem mem_numericalFeaturesOf {df : SDf}
    (hnd : (df.cols.map Prod.fst).Nodup) {e : String × Bool × List ℚ}
    (he : e ∈ df.cols) :
    e.1 ∈ numericalFeaturesOf df ↔ e.2.1 = true := by
  constructor
  · intro hmem
    obtain ⟨c, hcmem, hceq⟩ := List.mem_map.mp hmem
    have hcf := List.mem_filter.mp hcmem
    have hce : c = e := nodup_fst_inj hnd hcf.1 he hceq
    rw [hce] at hcf
    simpa using hcf.2
  · intro hflag
    exact List.mem_map.mpr ⟨e, List.mem_filter.mpr ⟨he, by simpa using hflag⟩, rfl⟩

theorem mem_featuresToScaleOf {df : SDf}
    (hnd : (df.cols.map Prod.fst).Nodup) {e : String × Bool × List ℚ}
    (he : e ∈ df.cols) :
    e.1 ∈ featuresToScaleOf df ↔
      (e.2.1 = true ∧
        (strEndsWith e.1 "_encoded"
          || (["Churn", "tenure_group", "customer_value_segment"].contains e.1))
          = false) := by
  unfold featuresToScaleOf
  rw [List.mem_filter, mem_numericalFeaturesOf hnd he]
  constructor
  · intro ⟨h1, h2⟩
    refine ⟨h1, ?_⟩
    simp only [Bool.and_eq_true, Bool.not_eq_true'] at h2
    simp only [h2.1, h2.2, Bool.or_false]
  · intro ⟨h1, h2⟩
    refine ⟨h1, ?_⟩
    simp only [Bool.or_eq_false_iff] at h2
    simp only [h2.1, h2.2, Bool.not_false, Bool.and_self]

theorem mem_standardFeaturesOf (df : SDf) (col : String) :
    col ∈ standardFeaturesOf df ↔
      col ∈ ["tenure", "MonthlyCharges", "TotalCharges"] ∧
        col ∈ featuresToScaleOf df := by
  unfold standardFeaturesOf
  rw [List.mem_filter]
  constructor
  · intro ⟨h1, h2⟩
    exact ⟨h1, List.elem_iff.mp h2⟩
  · intro ⟨h1, h2⟩
    exact ⟨h1, List.elem_iff.mpr h2⟩

theorem mem_minmaxFeaturesOf (df : SDf) (col : String) :
    col ∈ minmaxFeaturesOf df ↔
      col ∈ featuresToScaleOf df ∧ col ∉ standardFeaturesOf df := by
  unfold minmaxFeaturesOf
  rw [List.mem_filter]
  constructor
  · intro ⟨h1, h2⟩
    simp only [Bool.not_eq_true'] at h2
    refine ⟨h1, fun hh => ?_⟩
    have hc : (standardFeaturesOf df).contains col = true := List.elem_iff.mpr hh
    rw [h2] at hc
    cases hc
  · intro ⟨h1, h2⟩
    refine ⟨h1, ?_⟩
    simp only [Bool.not_eq_true']
    by_cases hc : (standardFeaturesOf df).contains col = true
    · exact absurd (List.elem_iff.mp hc) h2
    · simpa using hc

/-- The per-column action of `apply_feature_scaling` coincides with the
claimed partition on every column of a DataFrame with distinct column
names. -/
theorem scaling_entry_eq (stdT mmT : List ℚ → List ℚ) (df : SDf)
    (hnd : (df.cols.map Prod.fst).Nodup) {e : String × Bool × List ℚ}
    (he : e ∈ df.cols) :
    (if (standardFeaturesOf df).contains e.1 then (e.1, e.2.1, stdT e.2.2)
     else if (minmaxFeaturesOf df).contains e.1 then (e.1, e.2.1, mmT e.2.2)
     else e) = scaleEntry stdT mmT e := by
  by_cases hexc : (strEndsWith e.1 "_encoded"
      || (["Churn", "tenure_group", "customer_value_segment"].contains e.1))
      = true
  · have hnf : e.1 ∉ featuresToScaleOf df := by
      rw [mem_featuresToScaleOf hnd he]
      intro hh
      rw [hh.2] at hexc
      cases hexc
    have hstd : ¬ ((standardFeaturesOf df).contains e.1 = true) := by
      intro hh
      exact hnf ((mem_standardFeaturesOf df e.1).mp (List.elem_iff.mp hh)).2
    have hmm : ¬ ((minmaxFeaturesOf df).contains e.1 = true) := by
      intro hh
      exact hnf ((mem_minmaxFeaturesOf df e.1).mp (List.elem_iff.mp hh)).1
    rw [if_neg hstd, if_neg hmm, scaleEntry, if_pos hexc]
  · have hexcf : (strEndsWith e.1 "_encoded"
        || (["Churn", "tenure_group", "customer_value_segment"].contains e.1))
        = false := by
      simpa using hexc
    by_cases hflag : e.2.1 = true
    · have hfts : e.1 ∈ featuresToScaleOf df :=
        (mem_featuresToScaleOf hnd he).mpr ⟨hflag, hexcf⟩
      by_cases htri : e.1 ∈ ["tenure", "MonthlyCharges", "TotalCharges"]
      · have hstd : (standardFeaturesOf df).contains e.1 = true :=
          List.elem_iff.mpr ((mem_standardFeaturesOf df e.1).mpr ⟨htri, hfts⟩)
        rw [if_pos hstd, scaleEntry, if_neg hexc,
          if_pos (by rw [hflag]; simpa using List.elem_iff.mpr htri)]
      · have hstdn : e.1 ∉ standardFeaturesOf df := by
          rw [mem_standardFeaturesOf]
          intro hh
          exact htri hh.1
        have hstd : ¬ ((standardFeaturesOf df).contains e.1 = true) := by
          intro hh
          exact hstdn (List.elem_iff.mp hh)
        have hmm : (minmaxFeaturesOf df).contains e.1 = true :=
          List.elem_iff.mpr ((mem_minmaxFeaturesOf df e.1).mpr ⟨hfts, hstdn⟩)
        have hand : ¬ ((e.2.1
            && (["tenure", "MonthlyCharges", "TotalCharges"].contains e.1))
            = true) := by
          intro hh
          exact htri (List.elem_iff.mp (Bool.and_elim_right hh))
        rw [if_neg hstd, if_pos hmm, scaleEntry, if_neg hexc, if_neg hand,
          if_pos hflag]
    · have hnf : e.1 ∉ featuresToScaleOf df := by
        rw [mem_featuresToScaleOf hnd he]
        intro hh
        exact hflag hh.1
      have hstd : ¬ ((standardFeaturesOf df).contains e.1 = true) := by
        intro hh
        exact hnf ((mem_standardFeaturesOf df e.1).mp (List.elem_iff.mp hh)).2
      have hmm : ¬ ((minmaxFeaturesOf df).contains e.1 = true) := by
        intro hh
        exact hnf ((mem_minmaxFeaturesOf df e.1).mp (List.elem_iff.mp hh)).1
      have hand : ¬ ((e.2.1
          && (["tenure", "MonthlyCharges", "TotalCharges"].contains e.1))
          = true) := by
        intro hh
        exact hflag (Bool.and_elim_left hh)
      rw [if_neg hstd, if_neg hmm, scaleEntry, if_neg hexc, if_neg hand,
        if_neg hflag]

/-- C9: with `features_to_scale = None`, every `_encoded`-suffixed column and
the `Churn`/`tenure_group`/`customer_value_segment` columns are returned
exactly unchanged (value for value); among the remaining numeric columns,
those of the fixed triple `{tenure, MonthlyCharges, TotalCharges}` receive
the standard-scaler transform and every other eligible numeric column the
min-max transform; non-numeric columns are untouched.  Stated per column
position for arbitrary per-column scaler transforms. -/
theorem c9_scaling_partition (stdT mmT : List ℚ → List ℚ) (df : SDf)
    (hnd : (df.cols.map Prod.fst).Nodup) (i : Nat) :
    (apply_feature_scaling stdT mmT df).cols[i]?
      = (df.cols[i]?).map (scaleEntry stdT mmT) := by
  unfold apply_feature_scaling
  rw [List.getElem?_map]
  cases hx : df.cols[i]? with
  | none => rfl
  | some e =>
    have he : e ∈ df.cols := List.getElem?_mem hx
    simp only [Option.map_some']
    exact congrArg some (scaling_entry_eq stdT mmT df hnd he)

/-- A concrete mixed DataFrame: a standard-scaled column, an excluded encoded
column, the excluded label, a min-max scaled column, a non-numeric column. -/
def c9WitnessDf : SDf :=
  ⟨[("tenure", true, [1, 2]), ("gender_encoded", true, [0, 1]),
    ("Churn", true, [0, 1]), ("service_density", true, [3, 4]),
    ("customerID", false, [0, 0])]⟩

/-- Witness for C9 at a concrete input and column position. -/
theorem c9_scaling_partition_witness :
    (apply_feature_scaling (fun v => v.map (fun x => x + 1))
        (fun v => v.map (fun x => x * 2)) c9WitnessDf).cols[3]?
      = ((c9WitnessDf.cols[3]?).map (scaleEntry
          (fun v => v.map (fun x => x + 1)) (fun v => v.map (fun x => x * 2)))) :=
  c9_scaling_partition _ _ c9WitnessDf (by decide) 3

/-! ### Input discovery (`run_transformation_pipeline_auto`)

The glob results of the two patterns (`data/cleaned/*.csv`, then
`data/processed/*.csv`) are modelled as explicit `(path, mtime)` lists. -/

/-- Python `max(csv_files, key=os.path.getmtime)`: the first element of
maximal modification time. -/
def pyMaxByMtime (f : String × Nat) (rest : List (String × Nat)) :
    String × Nat :=
  rest.foldl (fun best x => if x.2 > best.2 then x else best) f

/-- The file-selection logic of `run_transformation_pipeline_auto`: the hits
of BOTH patterns are concatenated and the most recently modified file of the
union is loaded; `FileNotFoundError` is raised only when both lists are
empty. -/
def selectAutoInputCsv (cleanedMatches processedMatches : List (String × Nat)) :
    Except String String :=
  match cleanedMatches ++ processedMatches with
  | [] => Except.error "No CSV files found in data/cleaned or data/processed"
  | f :: rest => Except.ok (pyMaxByMtime f rest).1

theorem pyMaxByMtime_mem_le (f : String × Nat) (rest : List (String × Nat)) :
    pyMaxByMtime f rest ∈ f :: rest ∧
      ∀ g ∈ f :: rest, g.2 ≤ (pyMaxByMtime f rest).2 := by
  induction rest generalizing f with
  | nil =>
    constructor
    · simp [pyMaxByMtime]
    · intro g hg
      simp only [List.mem_cons, List.not_mem_nil, or_false] at hg
      simp [pyMaxByMtime, hg]
  | cons x xs ih =>
    have hstep : pyMaxByMtime f (x :: xs)
        = pyMaxByMtime (if x.2 > f.2 then x else f) xs := rfl
    by_cases h : x.2 > f.2
    · rw [hstep, if_pos h]
      obtain ⟨hm, hb⟩ := ih x
      constructor
      · exact List.mem_cons_of_mem f hm
      · intro g hg
        rcases List.mem_cons.mp hg with hg1 | hg1
        · rw [hg1]
          exact le_trans (le_of_lt h) (hb x (List.mem_cons_self x xs))
        · exact hb g hg1
    · rw [hstep, if_neg h]
      obtain ⟨hm, hb⟩ := ih f
      constructor
      · rcases List.mem_cons.mp hm with hm1 | hm1
        · rw [hm1]
          exact List.mem_cons_self f (x :: xs)
        · exact List.mem_cons_of_mem f (List.mem_cons_of_mem x hm1)
      · intro g hg
        rcases List.mem_cons.mp hg with hg1 | hg1
        · rw [hg1]
          exact hb f (List.mem_cons_self f xs)
        · rcases List.mem_cons.mp hg1 with hg2 | hg2
          · rw [hg2]
            exact le_trans (Nat.le_of_not_lt h) (hb f (List.mem_cons_self f xs))
          · exact hb g (List.mem_cons_of_mem f hg2)

/-- C2 (counterexample): the claim that a file under `data/processed` is
never chosen while `data/cleaned` is non-empty is false: with a cleaned CSV
of mtime 1 and a processed CSV of mtime 2, the processed file is selected. -/
theorem c2_claim_counterexample :
    selectAutoInputCsv [("data/cleaned/a.csv", 1)] [("data/processed/b.csv", 2)]
      = Except.ok "data/processed/b.csv" ∧
    ([("data/cleaned/a.csv", 1)] : List (String × Nat)) ≠ [] := by
  constructor
  · rfl
  · decide

/-- C2 (amended): the two glob patterns' hits are pooled, and the selected
file is a member of the pooled list with maximal modification time (first
maximal element on ties); the patterns are NOT tried in priority order, so a
newer file under `data/processed` wins over any file under `data/cleaned`.
An error is raised exactly when both patterns yield no hits. -/
theorem c2_auto_selection (cleaned processed : List (String × Nat))
    (hne : cleaned ++ processed ≠ []) :
    ∃ f ∈ cleaned ++ processed,
      selectAutoInputCsv cleaned processed = Except.ok f.1 ∧
      ∀ g ∈ cleaned ++ processed, g.2 ≤ f.2 := by
  match hcp : cleaned ++ processed with
  | [] => exact absurd hcp hne
  | f :: rest =>
    obtain ⟨hm, hb⟩ := pyMaxByMtime_mem_le f rest
    refine ⟨pyMaxByMtime f rest, hm, ?_, hb⟩
    simp only [selectAutoInputCsv, hcp]

/-- Witness for C2's amended theorem at concrete glob results. -/
theorem c2_auto_selection_witness :
    ∃ f ∈ ([("data/cleaned/a.csv", 5)] : List (String × Nat))
        ++ [("data/processed/b.csv", 3)],
      selectAutoInputCsv [("data/cleaned/a.csv", 5)] [("data/processed/b.csv", 3)]
        = Except.ok f.1 ∧
      ∀ g ∈ ([("data/cleaned/a.csv", 5)] : List (String × Nat))
          ++ [("data/processed/b.csv", 3)], g.2 ≤ f.2 :=
  c2_auto_selection [("data/cleaned/a.csv", 5)] [("data/processed/b.csv", 3)]
    (by decide)

/-! ### The SQLite store (`setup_database`, `store_transformed_data`,
`create_training_set`)

SQLite cells are dynamically typed; the store is modelled with optional
string cells (NULL is `none`).  A table object records whether it still
carries the PRIMARY KEY declared by `setup_database`, because pandas
`to_sql(..., if_exists='replace')` drops the table — losing the constraint
and, in SQLite, every index on the table — and recreates a bare table. -/

/-- One row of the `training_sets` table.  `data_quality_score` is `none`
when the computed score was NaN (stored as NULL). -/
structure TrainingSetRow where
  set_id : String
  set_name : String
  creation_date : String
  feature_count : Nat
  record_count : Nat
  target_distribution : String
  data_quality_score : Option ℚ
deriving DecidableEq

/-- The `customer_features` table object. -/
structure CFTable where
  hasPK : Bool
  contents : Table (Option String)
deriving DecidableEq

/-- The relational store: the `customer_features` table when present, the
indexes existing on it, and the other two tables with existence flags. -/
structure DBState where
  customer_features : Option CFTable
  cfIndexes : List String
  feature_metadata_exists : Bool
  feature_metadata : List MetaRow
  training_sets_exists : Bool
  training_sets : List TrainingSetRow
deriving DecidableEq

/-- A freshly created database file: no tables, no indexes. -/
def DBState.empty : DBState := ⟨none, [], false, [], false, []⟩

/-- The 36 columns of the `CREATE TABLE customer_features` statement. -/
def customerFeaturesSchema : List String :=
  ["customer_id", "tenure", "MonthlyCharges", "TotalCharges", "tenure_group",
   "charges_per_tenure", "total_to_monthly_ratio", "avg_monthly_charges",
   "gender_encoded", "SeniorCitizen", "Partner_encoded", "Dependents_encoded",
   "PhoneService_encoded", "MultipleLines_encoded", "InternetService_encoded",
   "OnlineSecurity_encoded", "OnlineBackup_encoded", "DeviceProtection_encoded",
   "TechSupport_encoded", "StreamingTV_encoded", "StreamingMovies_encoded",
   "Contract_encoded", "PaperlessBilling_encoded", "PaymentMethod_encoded",
   "Churn", "total_services", "service_density", "customer_value_segment",
   "tenure_stability", "high_risk_payment", "tenure_monthly_interaction",
   "tenure_total_interaction", "services_charges_interaction",
   "contract_payment_interaction", "created_timestamp", "updated_timestamp"]

/-- The three `CREATE INDEX` names of `setup_database`. -/
def theThreeIndexes : List String :=
  ["idx_customer_features_tenure", "idx_customer_features_churn",
   "idx_customer_features_charges"]

/-- `setup_database`: `CREATE TABLE IF NOT EXISTS` for the three tables (the
features table with its PRIMARY KEY) and `CREATE INDEX IF NOT EXISTS` for
the three indexes on `customer_features`. -/
def setup_database (s : DBState) : DBState :=
  { customer_features :=
      some (s.customer_features.getD
        ⟨true, ⟨customerFeaturesSchema.map (fun c => (c, []))⟩⟩),
    cfIndexes := theThreeIndexes.foldl
      (fun idxs i => if idxs.contains i then idxs else idxs ++ [i]) s.cfIndexes,
    feature_metadata_exists := true,
    feature_metadata := s.feature_metadata,
    training_sets_exists := true,
    training_sets := s.training_sets }

/-- `store_transformed_data`: rename `customerID` to `customer_id`, stamp
`created_timestamp` (kept if already a column, else now) and
`updated_timestamp` (always now), then `to_sql(..., if_exists='replace')`:
the existing table is DROPped (discarding the PRIMARY KEY and, per SQLite
semantics, every index on the table) and a bare table holding exactly the
DataFrame rows is created; finally `update_feature_metadata` runs. -/
def store_transformed_data (s : DBState) (df : Table (Option String))
    (now : String) : DBState :=
  let df1 := df.renameCol "customerID" "customer_id"
  let n := df1.nrows
  let df2 := if df1.hasCol "created_timestamp" then df1
             else df1.setCol "created_timestamp" (List.replicate n (some now))
  let df3 := df2.setCol "updated_timestamp" (List.replicate n (some now))
  { s with
    customer_features := some ⟨false, df3⟩,
    cfIndexes := if s.customer_features.isSome then [] else s.cfIndexes,
    feature_metadata := update_feature_metadata s.feature_metadata
      df3.colNames now }

/-- Insert an entry into a count-descending list, keeping the order. -/
def insertByCountDesc (x : String × Nat) :
    List (String × Nat) → List (String × Nat)
  | [] => [x]
  | y :: ys => if x.2 > y.2 then x :: y :: ys else y :: insertByCountDesc x ys

/-- Python `str(df['Churn'].value_counts().to_dict())`: a display string of
the non-null value counts, most frequent first. -/
def valueCountsString (vals : List (Option String)) : String :=
  let present := vals.filterMap id
  let uniq := present.eraseDups
  let counted := uniq.map (fun v => (v, present.count v))
  let sorted := counted.foldr insertByCountDesc []
  "\x7b" ++ String.intercalate ", "
    (sorted.map (fun p => "\x27" ++ p.1 ++ "\x27: " ++ toString p.2)) ++ "\x7d"

/-- `create_training_set`: SELECT the named (or all) columns from
`customer_features`, compute the quality score and target-distribution
string, synthesize `set_id = "{name}_{yyyymmdd_HHMMSS}"`, and plain-INSERT
the lineage row.  `training_sets.set_id` is a PRIMARY KEY and the INSERT has
no conflict clause, so a pre-existing identical `set_id` raises
`sqlite3.IntegrityError`.  The `datetime.now()` readings are explicit
parameters (`nowCompact` for the id, `nowIso` for the creation date). -/
def create_training_set (s : DBState) (set_name : String)
    (feature_columns : Option (List String)) (nowCompact nowIso : String) :
    Except String (DBState × String × String) :=
  match s.customer_features with
  | none => Except.error "OperationalError: no such table: customer_features"
  | some cf =>
    let dfE : Except String (Table (Option String)) :=
      match feature_columns with
      | none => Except.ok cf.contents
      | some cols =>
        if cols.all (fun c => cf.contents.hasCol c) then
          Except.ok ⟨cols.map (fun c => (c, ((cf.contents.getCol? c).getD [])))⟩
        else Except.error "OperationalError: no such column"
    match dfE with
    | Except.error e => Except.error e
    | Except.ok df =>
      let score := calculate_data_quality_score df
      let target_distribution :=
        if df.hasCol "Churn" then
          valueCountsString ((df.getCol? "Churn").getD [])
        else "No target"
      let set_id := set_name ++ "_" ++ nowCompact
      if s.training_sets.any (fun r => r.set_id == set_id) then
        Except.error
          "IntegrityError: UNIQUE constraint failed: training_sets.set_id"
      else
        Except.ok
          ({ s with training_sets := s.training_sets ++
              [⟨set_id, set_name, nowIso, df.cols.length, df.nrows,
                target_distribution, score⟩] },
           set_id, "data/processed/training_sets/" ++ set_id ++ ".csv")

/-- A database that went through setup and one store of a one-row frame. -/
def c4Stored : DBState :=
  store_transformed_data (setup_database DBState.empty)
    ⟨[("customerID", [some "A"]), ("Churn", [some "1"])]⟩ "2025-01-01T00:00:00"

/-- The first `create_training_set` call of the same-second pair. -/
def c4FirstCall : Except String (DBState × String × String) :=
  create_training_set c4Stored "churn_prediction_v1" none
    "20250101_120000" "2025-01-01T12:00:00.000001"

/-- The second call, within the same second (identical `strftime` reading). -/
def c4SecondCall : Except String (DBState × String × String) :=
  match c4FirstCall with
  | Except.ok (s, _, _) =>
    create_training_set s "churn_prediction_v1" none
      "20250101_120000" "2025-01-01T12:00:00.999999"
  | Except.error e => Except.error e

/-- C4: calling `create_training_set` twice with the same name in the same
second synthesizes the identical `set_id`, and the second plain INSERT into
the `training_sets` table violates its `set_id` PRIMARY KEY: the second call
raises `sqlite3.IntegrityError` instead of completing. -/
theorem c4_same_second_collision_crashes :
    (∃ x, c4FirstCall = Except.ok x) ∧
    c4SecondCall = Except.error
      "IntegrityError: UNIQUE constraint failed: training_sets.set_id" := by
  constructor
  · exact ⟨_, rfl⟩
  · rfl

/-- An input DataFrame holding two rows with the same `customerID`. -/
def c7DupDf : Table (Option String) :=
  ⟨[("customerID", [some "A", some "A"]), ("tenure", [some "1", some "2"])]⟩

/-- The store after setup and one `store_transformed_data` of `c7DupDf`. -/
def c7State : DBState :=
  store_transformed_data (setup_database DBState.empty) c7DupDf
    "2025-01-01T00:00:00"

/-- C7: `customer_id` uniqueness is NOT an invariant of the stored feature
table: `to_sql(..., if_exists='replace')` recreates `customer_features`
without the PRIMARY KEY declared by `setup_database`, so an input with a
duplicated `customerID` is stored as two rows with the same `customer_id`. -/
theorem c7_duplicate_customer_ids_stored :
    ∃ cf, c7State.customer_features = some cf ∧
      cf.hasPK = false ∧
      cf.contents.getCol? "customer_id" = some [some "A", some "A"] ∧
      ((cf.contents.getCol? "customer_id").getD []).count (some "A") = 2 := by
  refine ⟨_, rfl, rfl, rfl, rfl⟩

/-- The store after setup and one `store_transformed_data` of a one-row
frame. -/
def c8AfterStore : DBState :=
  store_transformed_data (setup_database DBState.empty)
    ⟨[("customerID", [some "A"]), ("tenure", [some "1"])]⟩
    "2025-01-01T00:00:00"

/-- C8: `setup_database` does create the three tables and three indexes, but
the indexes do NOT survive a full-table replace: `store_transformed_data`
DROPs `customer_features` (SQLite drops its indexes with it) and recreates
only the bare table, so after one store the three tables exist while the
index list on `customer_features` is empty. -/
theorem c8_indexes_dropped_on_replace :
    (setup_database DBState.empty).cfIndexes = theThreeIndexes ∧
    (setup_database DBState.empty).customer_features.isSome = true ∧
    (setup_database DBState.empty).feature_metadata_exists = true ∧
    (setup_database DBState.empty).training_sets_exists = true ∧
    c8AfterStore.customer_features.isSome = true ∧
    c8AfterStore.feature_metadata_exists = true ∧
    c8AfterStore.training_sets_exists = true ∧
    c8AfterStore.cfIndexes = [] := by
  refine ⟨rfl, rfl, rfl, rfl, rfl, rfl, rfl, rfl⟩

end ChurnPipeline
